import Mathlib

/-!
Shallow embedding of the pocket-asi core (framed transport, sandbox shell
executor, history compactor, connection state machine) and proofs of the
frozen specification claims about it.

Sources embedded: `src/client/common.py` (framed transport, `expect`),
`src/client/shell.py` (sandbox executor), `src/client/client.py` and
`src/server/server.py` (connection state machines), `src/server/llama_chat.py`
(history compactor and result flattening), `src/server/typedefs.py` and
`src/client/typedefs.py` (data model), `src/client/const.py` and
`src/server/const.py` (constants).
-/

/- ===================== Framed transport (src/client/common.py) ============

`send_model` serializes a pydantic model to JSON, appends one NUL byte and
writes it with `sendall` (common.py:131-136).  `read_message`
(common.py:139-153) declares `buf = b''` as a LOCAL variable, repeatedly calls
`sock.recv(4096)`, raises `ConnectionError` on an empty read, and once a NUL
is in the buffer does `message, buf = buf.split(b'\0', 1)` and returns: the
part of the buffer after the first NUL is dropped when the function returns.
A socket is modelled as the list of byte chunks successive `recv` calls
deliver; an empty chunk models the zero-byte read of a closed connection. -/

abbrev Byte := Nat

/-- `send_model`: the serialized payload followed by one NUL byte, as a single
TCP write (common.py:136). -/
def sendBytes (payload : List Byte) : List Byte :=
  payload ++ [0]

/-- The `while True` loop of `read_message` (common.py:145-153), with `buf`
the local accumulation buffer.  Returns the bytes before the first NUL and
the chunks not yet consumed from the socket; bytes after the first NUL inside
the local buffer are discarded, exactly as in the source. -/
def readMessageAux (buf : List Byte) : List (List Byte) → Except String (List Byte × List (List Byte))
  | [] => .error "Connection closed"
  | chunk :: rest =>
    if chunk = [] then .error "Connection closed"
    else
      let buf2 := buf ++ chunk
      if 0 ∈ buf2 then .ok (buf2.takeWhile (· ≠ 0), rest)
      else readMessageAux buf2 rest

/-- `read_message` (common.py:139-153): `buf = b''` is re-initialized on every
call, so nothing persists across calls. -/
def readMessage (chunks : List (List Byte)) : Except String (List Byte × List (List Byte)) :=
  readMessageAux [] chunks

/- ===================== Decimal digits ====================================

Decimal rendering (Python `f'{c} ...'` / `str`) and parsing (`int(...)` on a
`[0-9]+` regex group), needed for the PS1 prompt format and its parse. -/

/-- Decimal digits, least significant first, with structural fuel (any fuel
above the number of digits gives the same answer). -/
def natToDigitsRevFuel : Nat → Nat → List Char
  | 0, _ => []
  | fuel + 1, n =>
    if n < 10 then [Nat.digitChar n]
    else Nat.digitChar (n % 10) :: natToDigitsRevFuel fuel (n / 10)

/-- Decimal digits of `n`, least significant first (standard decimal
rendering, reversed). -/
def natToDigitsRev (n : Nat) : List Char :=
  natToDigitsRevFuel (n + 1) n

/-- Decimal rendering of `n`, most significant digit first. -/
def natToString (n : Nat) : String :=
  ⟨(natToDigitsRev n).reverse⟩

/-- Value of a digit list, least significant first. -/
def valRev : List Char → Nat
  | [] => 0
  | c :: t => (c.toNat - 48) + 10 * valRev t

/-- `int(...)` on a string of decimal digits, most significant first. -/
def digitsToNat (l : List Char) : Nat :=
  l.foldl (fun a c => 10 * a + (c.toNat - 48)) 0

/- ===================== PS1 prompt parsing (src/client/shell.py) ==========

`Shell._parse_prompt` (shell.py:211-231) matches the prompt against
`^(?P<exit_code>[0-9]+) (?P<user>.+)@(?P<host>.+):(?P<cwd>.+) (?P<usertype>[$#]) $`
with Python `re.match` semantics: greedy quantifiers with backtracking, `.`
matching any character except a newline, the match anchored at both ends.
For this fixed pattern that behaviour is:
  * `[0-9]+` is the maximal digit prefix (shortening it never helps because
    the next literal is a space, which is not a digit), followed by ' ';
  * the trailing ` ([$#]) $` is rigid: the last three characters must be
    a space, a sigil and a space, because each of its atoms matches exactly
    one character and the pattern is end-anchored;
  * the middle must split as `user ++ '@' ++ host ++ ':' ++ cwd` with the
    three groups nonempty; the groups partition the whole middle, so a
    newline anywhere in the middle kills every split;
  * greediness selects the rightmost `'@'` whose suffix still admits a
    `host ':' cwd` split, and then the rightmost `':'` with both sides
    nonempty.
The functions below implement exactly that. -/

/-- All ways to split a list at an occurrence of `sep`, leftmost first. -/
def splitsOn (sep : Char) : List Char → List (List Char × List Char)
  | [] => []
  | c :: t =>
    (if c = sep then [(([] : List Char), t)] else []) ++
      (splitsOn sep t).map (fun p => (c :: p.1, p.2))

/-- The rightmost split at `':'` with both sides nonempty (greedy `host`). -/
def lastValidColon (l : List Char) : Option (List Char × List Char) :=
  ((splitsOn ':' l).filter (fun p => !p.1.isEmpty && !p.2.isEmpty)).getLast?

/-- Match the middle of the prompt against `(.+)@(.+):(.+)` with Python's
greedy backtracking semantics. -/
def matchMid (mid : List Char) : Option (List Char × List Char × List Char) :=
  if '\n' ∈ mid then none
  else
    match ((splitsOn '@' mid).filter
        (fun p => !p.1.isEmpty && (lastValidColon p.2).isSome)).getLast? with
    | none => none
    | some (u, rest) =>
      match lastValidColon rest with
      | none => none
      | some (h, w) => some (u, h, w)

/-- Full match of `^([0-9]+) (.+)@(.+):(.+) ([$#]) $` on a character list. -/
def matchPromptChars (s : List Char) :
    Option (Nat × List Char × List Char × List Char × Char) :=
  let ds := s.takeWhile Char.isDigit
  let rest := s.dropWhile Char.isDigit
  if ds = [] then none
  else
    match rest with
    | sp :: rest2 =>
      if sp = ' ' then
        match rest2.reverse with
        | s1 :: t :: s2 :: midrev =>
          if s1 = ' ' ∧ s2 = ' ' ∧ (t = '$' ∨ t = '#') then
            match matchMid midrev.reverse with
            | some (u, h, w) => some (digitsToNat ds, u, h, w, t)
            | none => none
          else none
        | _ => none
      else none
    | [] => none

/-- `usertype` values (`client/typedefs.py:18`). -/
inductive Usertype
  | root
  | user
deriving DecidableEq

/-- `USERTYPES` (`client/const.py:26-29`): `'$' → user`, `'#' → root`. -/
def USERTYPES (c : Char) : Option Usertype :=
  if c = '$' then some .user else if c = '#' then some .root else none

/-- Parsed PS1 prompt (`client/typedefs.py:10-18`). -/
structure Prompt where
  prompt : String
  exit_code : Int
  user : String
  host : String
  cwd : String
  usertype : Usertype
deriving DecidableEq

/-- `Shell._parse_prompt` (shell.py:211-231) as a total function: `none` is
the non-matching case, in which the source raises `ValueError`. -/
def parsePrompt (s : String) : Option Prompt :=
  match matchPromptChars s.data with
  | some (c, u, h, w, t) =>
    match USERTYPES t with
    | some ut => some ⟨s, (c : Int), ⟨u⟩, ⟨h⟩, ⟨w⟩, ut⟩
    | none => none
  | none => none

/-- The expansion of the operator PS1 `$? \u@\h:\w # ` (shell.py:213): the
format whose parse the spec claims is inverse. -/
def formatPrompt (c : Nat) (u h w : String) (t : Char) : String :=
  natToString c ++ " " ++ u ++ "@" ++ h ++ ":" ++ w ++ " " ++ String.singleton t ++ " "

/-- Well-formedness of the prompt components under which the greedy regex
recovers them exactly. -/
def wfPrompt (u h w : String) (t : Char) : Prop :=
  u.data ≠ [] ∧ '\n' ∉ u.data ∧
  h.data ≠ [] ∧ '\n' ∉ h.data ∧ '@' ∉ h.data ∧
  w.data ≠ [] ∧ '\n' ∉ w.data ∧ '@' ∉ w.data ∧ ':' ∉ w.data ∧
  (t = '$' ∨ t = '#')

instance (u h w : String) (t : Char) : Decidable (wfPrompt u h w t) := by
  unfold wfPrompt
  exact inferInstance

/- ===================== Message / result data model =======================

Mirrors `src/client/typedefs.py`.  `exit_code` is a Python int, so `Int`
here (the synthetic codes -2 and -3 are negative).  Output lines carry a
wall-clock timestamp; the timestamp value is irrelevant to every claim, so
it is modelled as a `Nat`.  `LlamaClientConfig` is an external pydantic
settings class; a result's `config` snapshot is abstracted as the JSON text
it was validated from. -/

/-- `OutputLine` (`client/typedefs.py:21`). -/
abbrev OutputLine := Nat × String

/-- `ShellCommand` (`client/typedefs.py:49-58`): `comment` is inherited from
`BaseCommand` and optional. -/
structure ShellCommand where
  comment : Option String := none
  command : String
deriving DecidableEq

/-- `FileReadCommand` (`client/typedefs.py:61-64`). -/
structure FileReadCommand where
  comment : Option String := none
  file : String
deriving DecidableEq

/-- `FileWriteCommand` (`client/typedefs.py:67-71`). -/
structure FileWriteCommand where
  comment : Option String := none
  file : String
  content : String
deriving DecidableEq

/-- `AnyCommand` (`client/typedefs.py:75`). -/
inductive AnyCommand
  | shell (c : ShellCommand)
  | fileRead (c : FileReadCommand)
  | fileWrite (c : FileWriteCommand)
deriving DecidableEq

/-- The `BaseResult` envelope (`client/typedefs.py:84-89`): the `{config,
system, goal}` snapshot re-read from `/app` at the moment of return. -/
structure BaseSnap where
  config : Option String := none
  system : Option String := none
  goal : Option String := none
deriving DecidableEq

/-- `ShellResult` (`client/typedefs.py:92-99`). -/
structure ShellResult where
  config : Option String
  system : Option String
  goal : Option String
  command : ShellCommand
  prompt : Prompt
  stdout : List OutputLine
  stderr : List OutputLine
  exit_code : Int
deriving DecidableEq

/-- `FileWriteResult` (`client/typedefs.py:102-107`). -/
structure FileWriteResult where
  config : Option String
  system : Option String
  goal : Option String
  command : FileWriteCommand
  file : String
  error : Option String := none
  written : Option Nat := none
deriving DecidableEq

/-- `FileReadResult` (`client/typedefs.py:111-117`). -/
structure FileReadResult where
  config : Option String
  system : Option String
  goal : Option String
  command : FileReadCommand
  file : String
  content : Option String := none
  error : Option String := none
deriving DecidableEq

/-- `AnyResult` (`client/typedefs.py:121`). -/
inductive AnyResult
  | shell (r : ShellResult)
  | fileRead (r : FileReadResult)
  | fileWrite (r : FileWriteResult)
deriving DecidableEq

/- ===================== Sandbox executor (src/client/shell.py) ============

The executor owns one persistent `/bin/bash` subprocess.  Its observable
state, as far as the claims are concerned, is whether it is still alive, its
working directory (reported by `\w` in the probed PS1) and the exit status
`$?` of the last command it ran (reported by `$?` in the probed PS1).
`\u` and `\h` and the PS1 sigil are fixed by the environment. -/

/-- Outer bash process state observed through the PS1 probe. -/
structure BashSt where
  alive : Bool
  cwd : String
  lastExit : Nat
deriving DecidableEq

/-- Static prompt environment: `\u`, `\h` and the sigil of the operator PS1. -/
structure PromptEnv where
  user : String
  host : String
  sigil : Char
deriving DecidableEq

/-- The string produced by expanding `${PS1@P}` with PS1 = `$? \u@\h:\w # `
inside the probe subshell (shell.py:352-362). -/
def probeString (env : PromptEnv) (st : BashSt) : String :=
  formatPrompt st.lastExit env.user env.host st.cwd env.sigil

/-- `Shell._parse_prompt` with its failure case: a non-matching prompt raises
`ValueError` (shell.py:218-220). -/
def parsePromptE (s : String) : Except String Prompt :=
  match parsePrompt s with
  | some p => .ok p
  | none => .error ("Prompt does not match expected format: " ++ s)

/-- `SHELL_INTERACTIVE_COMMANDS` (`client/const.py:14-19`). -/
def SHELL_INTERACTIVE_COMMANDS : List String := ["vim", "nano", "less", "more"]

/-- Outcome of `bashlex.parse(command)`, an external library call.  The
error arms correspond to `LEXER_ERRORS` (MatchedPairError, ParsingError →
exit 2) and `GENERIC_ERRORS` (TypeError → exit -2, a bashlex workaround),
`client/const.py:34-44`; `ok` carries the top-level command words that
`_get_commands` extracts from the parse tree (shell.py:82-102). -/
inductive BashlexOutcome
  | ok (topWords : List String)
  | matchedPairError (msg : String)
  | parsingError (msg : String)
  | typeError
deriving DecidableEq

/-- `re.sub(r'^#.*', '', command)` (shell.py:186): if the command starts
with `#`, remove everything up to (not including) the first newline. -/
def stripLeadingComment (s : String) : String :=
  if s.data.head? = some '#' then ⟨s.data.dropWhile (· ≠ '\n')⟩ else s

/-- Python `str.strip()`: remove whitespace from both ends (over the ASCII
whitespace the commands at issue contain). -/
def pyStrip (l : List Char) : List Char :=
  ((l.dropWhile Char.isWhitespace).reverse.dropWhile Char.isWhitespace).reverse

/-- The interactive command names found in a parsed command:
`set(commands) & set(SHELL_INTERACTIVE_COMMANDS)` (shell.py:204).  Python
iterates the set in unspecified order; this model uses the order of
`SHELL_INTERACTIVE_COMMANDS`, which no claim depends on. -/
def interactiveNames (words : List String) : List String :=
  SHELL_INTERACTIVE_COMMANDS.filter (fun w => words.contains w)

/-- The decision core of `Shell._lex` (shell.py:184-209): `some (code, msg)`
means a synthetic `_dummy_result(command, code, stderr=msg)` is returned
before anything reaches the shell; `none` means the command is executed. -/
def lexCheck (command : String) (parseOutcome : BashlexOutcome) : Option (Int × Option String) :=
  if pyStrip (stripLeadingComment command).data = [] then some (0, none)
  else
    match parseOutcome with
    | .matchedPairError m => some (2, some m)
    | .parsingError m => some (2, some m)
    | .typeError => some (-2, some "Internal error")
    | .ok words =>
      let inter := interactiveNames words
      if inter.isEmpty then none
      else some (-3, some ("Not a terminal: " ++ String.intercalate ", " inter))

/-- `_dummy_out` (shell.py:53-55). -/
def dummyOut (message : String) : List OutputLine :=
  [(0, "/bin/bash: " ++ message)]

/-- `Shell._dummy_result` (shell.py:158-182): ensure the shell is running
(respawning the `fresh` one if it died), probe and parse a fresh prompt, and
build a `ShellResult` whose `command` is reconstructed as
`ShellCommand(command=command)` from the bare string and whose `exit_code`
is the given code.  Returns the result together with the shell state it
leaves behind. -/
def dummyResult (env : PromptEnv) (st fresh : BashSt) (base : BaseSnap)
    (command : String) (exit_code : Int)
    (stdoutMsg stderrMsg : Option String) : Except String (ShellResult × BashSt) :=
  let stE := if st.alive then st else fresh
  (parsePromptE (probeString env stE)).map (fun p =>
    ({ config := base.config, system := base.system, goal := base.goal,
       command := { comment := none, command := command },
       prompt := p,
       stdout := match stdoutMsg with | some m => dummyOut m | none => [],
       stderr := match stderrMsg with | some m => dummyOut m | none => [],
       exit_code := exit_code }, stE))

/-- What feeding the user command line to the outer bash does.  This is the
external bash semantics parameter of the embedding: `runs` is a command that
terminates with the given output, new working directory and exit status;
`killsShell` is a command (such as a top-level `exit 42`) that terminates
the outer bash process itself — the command line is written verbatim, with
no subshell wrapper, by `self._put_stdin(command.command)` (shell.py:411),
so a top-level `exit` does reach the outer shell; `hangs` is a command that
does not finish within `EXIT_TIMEOUT`, whereupon the executor kills the
shell's children and `killedStatus` is the status `$?` then reports. -/
inductive CmdBehavior
  | runs (stdout stderr : List OutputLine) (newCwd : String) (exit : Nat)
  | killsShell (code : Nat)
  | hangs (killedStatus : Nat)
deriving DecidableEq

/-- `Shell._execute_shell` (shell.py:392-427) together with the probe logic
of `_get_prompt`/`_wait_done` (shell.py:330-362):

  * if `_lex` refuses the command, the synthetic `_dummy_result` is returned
    and nothing is written to the shell;
  * otherwise the command line is written verbatim; if it ran normally the
    probe parses a prompt reflecting the new state and the result's
    `exit_code` is `prompt.exit_code` (shell.py:422);
  * if the command killed the outer shell, `_wait_done` finds the shell gone,
    `_ensure_shell` respawns a fresh one (shell.py:321-336) and the prompt
    probed from the fresh shell is used: the returned state is the fresh
    shell, the previous state is lost;
  * if the command hung, the children are killed, a `_dummy_result('', -2,
    stderr='Command timed out')` is built only for its freshly probed prompt
    string (shell.py:341-347) — the dummy itself is discarded — and the
    result is assembled from that prompt. -/
def executeShell (env : PromptEnv) (st fresh : BashSt) (base : BaseSnap)
    (cmd : ShellCommand) (lexEnv : BashlexOutcome) (beh : CmdBehavior) :
    Except String (ShellResult × BashSt) :=
  match lexCheck cmd.command lexEnv with
  | some (code, stderrMsg) => dummyResult env st fresh base cmd.command code none stderrMsg
  | none =>
    match beh with
    | .runs out err newCwd ec =>
      let st2 : BashSt := ⟨true, newCwd, ec⟩
      (parsePromptE (probeString env st2)).map (fun p =>
        ({ config := base.config, system := base.system, goal := base.goal,
           command := cmd, prompt := p, stdout := out, stderr := err,
           exit_code := p.exit_code }, st2))
    | .killsShell _ =>
      (parsePromptE (probeString env fresh)).map (fun p =>
        ({ config := base.config, system := base.system, goal := base.goal,
           command := cmd, prompt := p, stdout := [], stderr := [],
           exit_code := p.exit_code }, fresh))
    | .hangs killedStatus =>
      let st2 : BashSt := ⟨true, st.cwd, killedStatus⟩
      (parsePromptE (probeString env st2)).map (fun p =>
        ({ config := base.config, system := base.system, goal := base.goal,
           command := cmd, prompt := p, stdout := [], stderr := [],
           exit_code := p.exit_code }, st2))

/-- The claim-side variant of the executor for the subshell-wrapper property:
the spec asserts user commands run "under a subshell wrapper that prevents
them from terminating the outer shell", i.e. a command that would exit the
shell instead behaves like a command that merely finishes with that exit
status, the outer state surviving.  Defined from the spec's words, to be
compared with `executeShell`. -/
def executeShellWrapped (env : PromptEnv) (st fresh : BashSt) (base : BaseSnap)
    (cmd : ShellCommand) (lexEnv : BashlexOutcome) (beh : CmdBehavior) :
    Except String (ShellResult × BashSt) :=
  executeShell env st fresh base cmd lexEnv
    (match beh with
     | .killsShell code => .runs [] [] st.cwd code
     | b => b)

/-- Outcome of touching the filesystem in `Shell._execute_file`
(shell.py:435-455): the error arms are the keys of its `errors` dict plus
the generic `str(e)` fallback. -/
inductive FileOutcome
  | ok (content : String)
  | notFound
  | isDirectory
  | otherError (msg : String)
deriving DecidableEq

/-- `Shell._execute_file` for a `FileReadCommand` (shell.py:435-455): the
result always carries the command object itself in `command`. -/
def executeFileRead (base : BaseSnap) (cmd : FileReadCommand) (fs : FileOutcome) :
    FileReadResult :=
  match fs with
  | .ok content =>
    { config := base.config, system := base.system, goal := base.goal,
      command := cmd, file := cmd.file, content := some content, error := none }
  | .notFound =>
    { config := base.config, system := base.system, goal := base.goal,
      command := cmd, file := cmd.file, content := none, error := some "File not found" }
  | .isDirectory =>
    { config := base.config, system := base.system, goal := base.goal,
      command := cmd, file := cmd.file, content := none, error := some "Is a directory" }
  | .otherError m =>
    { config := base.config, system := base.system, goal := base.goal,
      command := cmd, file := cmd.file, content := none, error := some m }

/-- `Shell._execute_file` for a `FileWriteCommand` (shell.py:435-455):
`written = len(content)` on success. -/
def executeFileWrite (base : BaseSnap) (cmd : FileWriteCommand) (fs : FileOutcome) :
    FileWriteResult :=
  match fs with
  | .ok _ =>
    { config := base.config, system := base.system, goal := base.goal,
      command := cmd, file := cmd.file, error := none, written := some cmd.content.length }
  | .notFound =>
    { config := base.config, system := base.system, goal := base.goal,
      command := cmd, file := cmd.file, error := some "File not found", written := none }
  | .isDirectory =>
    { config := base.config, system := base.system, goal := base.goal,
      command := cmd, file := cmd.file, error := some "Is a directory", written := none }
  | .otherError m =>
    { config := base.config, system := base.system, goal := base.goal,
      command := cmd, file := cmd.file, error := some m, written := none }

/- ===================== Result flattening (src/server/llama_chat.py) ======

`_simplify` (llama_chat.py:47-70) projects a result onto the `Simple*`
models of `server/typedefs.py`; `_from_result` (llama_chat.py:73-86) turns a
result into an assistant message (the JSON of the command) and a user
message (the JSON of the simplified result with every falsy field removed:
`{k: v for k, v in ....model_dump().items() if v}`). -/

/-- `SimpleShellResult` (`server/typedefs.py:63-71`), field declaration
order preserved because `model_dump` iterates it. -/
structure SimpleShellResult where
  prompt : String
  command : String
  stdout : Option String := none
  stderr : Option String := none
  exit_code : Option Int := none
deriving DecidableEq

/-- `SimpleFileReadResult` (`server/typedefs.py:73-78`). -/
structure SimpleFileReadResult where
  file : String
  content : Option String := none
  error : Option String := none
deriving DecidableEq

/-- `SimpleFileWriteResult` (`server/typedefs.py:81-87`). -/
structure SimpleFileWriteResult where
  file : String
  content : String
  written : Option Int := none
  error : Option String := none
deriving DecidableEq

/-- A value of a dumped pydantic field as it matters to Python truthiness:
the fields of the `Simple*` models are strings, ints or `None`. -/
inductive JValue
  | s (v : String)
  | i (v : Int)
  | null
deriving DecidableEq

/-- Python truthiness on dumped field values: `''`, `0` and `None` are
falsy. -/
def truthy : JValue → Bool
  | .s v => !v.isEmpty
  | .i v => v != 0
  | .null => false

/-- An optional string field as dumped. -/
def jOptS : Option String → JValue
  | some v => .s v
  | none => .null

/-- An optional int field as dumped. -/
def jOptI : Option Int → JValue
  | some v => .i v
  | none => .null

/-- `_simplify` on a `ShellResult` (llama_chat.py:48-55): stdout/stderr are
the plain concatenations of the line texts, timestamps discarded. -/
def simplifyShell (r : ShellResult) : SimpleShellResult :=
  { command := r.command.command
    prompt := r.prompt.prompt
    stdout := some (String.join (r.stdout.map (fun v => v.2)))
    stderr := some (String.join (r.stderr.map (fun v => v.2)))
    exit_code := some r.exit_code }

/-- `_simplify` on a `FileReadResult` (llama_chat.py:56-61). -/
def simplifyFileRead (r : FileReadResult) : SimpleFileReadResult :=
  { file := r.file, content := r.content, error := r.error }

/-- `_simplify` on a `FileWriteResult` (llama_chat.py:62-68): the echoed
`content` is the command's content. -/
def simplifyFileWrite (r : FileWriteResult) : SimpleFileWriteResult :=
  { file := r.file, content := r.command.content
    written := (r.written.map (fun n => (n : Int))), error := r.error }

/-- `model_dump()` of a `SimpleShellResult` as an ordered field list. -/
def simpleShellFields (r : SimpleShellResult) : List (String × JValue) :=
  [("prompt", .s r.prompt), ("command", .s r.command), ("stdout", jOptS r.stdout),
   ("stderr", jOptS r.stderr), ("exit_code", jOptI r.exit_code)]

/-- `model_dump()` of a `SimpleFileReadResult` as an ordered field list. -/
def simpleFileReadFields (r : SimpleFileReadResult) : List (String × JValue) :=
  [("file", .s r.file), ("content", jOptS r.content), ("error", jOptS r.error)]

/-- `model_dump()` of a `SimpleFileWriteResult` as an ordered field list. -/
def simpleFileWriteFields (r : SimpleFileWriteResult) : List (String × JValue) :=
  [("file", .s r.file), ("content", .s r.content), ("written", jOptI r.written),
   ("error", jOptS r.error)]

/-- The field list of the `user` chat message built by `_from_result`
(llama_chat.py:79-85): the simplified dump with every falsy field removed. -/
def userFields : AnyResult → List (String × JValue)
  | .shell r => (simpleShellFields (simplifyShell r)).filter (fun kv => truthy kv.2)
  | .fileRead r => (simpleFileReadFields (simplifyFileRead r)).filter (fun kv => truthy kv.2)
  | .fileWrite r => (simpleFileWriteFields (simplifyFileWrite r)).filter (fun kv => truthy kv.2)

/- ===================== Chat prompt assembly ==============================

JSON text rendering.  String escaping is irrelevant to every claim (no claim
depends on the rendered text of a particular value, only on which fields
appear and on the sequence of messages), so `json.dumps` of a string is
abstracted as quoting without escapes. -/

/-- Quoted string (abstraction of `json.dumps` on a string). -/
def jsonStr (s : String) : String := "\"" ++ s ++ "\""

/-- Rendered field value. -/
def renderJValue : JValue → String
  | .s v => jsonStr v
  | .i v => toString v
  | .null => "null"

/-- Rendered JSON object from an ordered field list. -/
def renderFields (l : List (String × JValue)) : String :=
  "\x7b" ++ String.intercalate ", " (l.map (fun kv => jsonStr kv.1 ++ ": " ++ renderJValue kv.2)) ++ "\x7d"

/-- `model_dump_json()` of a command (`result.command.model_dump_json()`,
llama_chat.py:77), with `comment` first as declared on `BaseCommand`. -/
def dumpCommand : AnyCommand → String
  | .shell c =>
    renderFields [("comment", jOptS c.comment), ("command", .s c.command)]
  | .fileRead c =>
    renderFields [("comment", jOptS c.comment), ("file", .s c.file)]
  | .fileWrite c =>
    renderFields [("comment", jOptS c.comment), ("file", .s c.file), ("content", .s c.content)]

/-- The command echoed inside a result. -/
def commandOf : AnyResult → AnyCommand
  | .shell r => .shell r.command
  | .fileRead r => .fileRead r.command
  | .fileWrite r => .fileWrite r.command

/-- One chat message. -/
structure ChatMsg where
  role : String
  content : String
deriving DecidableEq

/-- `_from_result` (llama_chat.py:73-86): each result becomes an `assistant`
message holding the command JSON and a `user` message holding the filtered
simplified result JSON. -/
def fromResult (r : AnyResult) : List ChatMsg :=
  [⟨"assistant", dumpCommand (commandOf r)⟩, ⟨"user", renderFields (userFields r)⟩]

/-- `_from_commands` (llama_chat.py:89-90): flatten the history in order. -/
def fromCommands (rs : List AnyResult) : List ChatMsg :=
  (rs.map fromResult).flatten

/-- `LLAMA_TOKEN_BUFFER` (`server/const.py:20`). -/
def LLAMA_TOKEN_BUFFER : Nat := 512

/-- `LlamaChat._get_prompt` (llama_chat.py:140-160).  `tc` is the external
tokenizer dependency (`len(self._llama.tokenize(prompt, special=True))`),
`nctx` is `n_ctx`.  The loop `while self._history:` builds
`[system, *_from_commands(history)]`, returns it if it is within
`n_ctx - LLAMA_TOKEN_BUFFER` tokens, and otherwise pops the oldest entry
(`self._history.pop(0)`) and retries; an empty history raises `ValueError`
(`'No commands fit ...'`).  The comparison is on Python ints, hence `Int`
here.  Returns the prompt together with the history left in place. -/
def getPromptAux (tc : List ChatMsg → Nat) (nctx : Int) (system : ChatMsg) :
    List AnyResult → Except String (List ChatMsg × List AnyResult)
  | [] => .error "No commands fit"
  | h :: t =>
    let prompt := system :: fromCommands (h :: t)
    if (tc prompt : Int) ≤ nctx - (LLAMA_TOKEN_BUFFER : Int) then .ok (prompt, h :: t)
    else getPromptAux tc nctx system t

/- ===================== Dispatch-loop error handling ======================

Python exception kinds that cross the boundaries the claims talk about.
`pydantic.ValidationError` is a subclass of `ValueError`, so a handler
`except ValueError:` catches both. -/

/-- Exception kinds raised across the generation/dispatch boundary. -/
inductive PyError
  | validationError (msg : String)
  | valueError (msg : String)
  | connectionError (msg : String)
deriving DecidableEq

/-- Whether `except ValueError:` catches the exception:
`pydantic.ValidationError` subclasses `ValueError`. -/
def isValueError : PyError → Bool
  | .validationError _ => true
  | .valueError _ => true
  | .connectionError _ => false

/-- `LlamaChat.get_commands` (llama_chat.py:162-168): `_get_prompt` may raise
`ValueError` when the context is exhausted; otherwise the schema-constrained
generator's output is parsed by `expect(response, AnyCommands, ...)`, whose
failure (`genParse`) raises `ValidationError`/`ValueError`. -/
def getCommandsE (tc : List ChatMsg → Nat) (nctx : Int) (system : ChatMsg)
    (hist : List AnyResult) (genParse : Except PyError (List AnyCommand)) :
    Except PyError (List AnyCommand) :=
  match getPromptAux tc nctx system hist with
  | .error m => .error (.valueError m)
  | .ok _ => genParse

/-- What one iteration of the server's dispatch loop does next. -/
inductive LoopAction
  | continueLoop
  | breakLoop
  | crash (e : PyError)
deriving DecidableEq

/-- One iteration of the `while True:` dispatch loop in
`Server._handle_connection` (server.py:96-104): `except ValueError:
continue` around `get_commands`, `except ConnectionError: break` around
`_send_commands`; any other exception propagates out of the loop. -/
def dispatchStep (gen : Except PyError (List AnyCommand))
    (sendOutcome : Option PyError) : LoopAction :=
  match gen with
  | .error e => if isValueError e then .continueLoop else .crash e
  | .ok _ =>
    match sendOutcome with
    | some (.connectionError _) => .breakLoop
    | some e => .crash e
    | none => .continueLoop

/- ===================== Batch dispatch (src/server/server.py) =============

`Server._send_commands` (server.py:131-151) sends each command, blocks on
one result, collects the results in a local list, and appends them to the
history via `append_commands` only after the whole loop finished.  A
`ConnectionError` from `_expect` propagates out before the append and is
handled by `except ConnectionError: break` in `_handle_connection`
(server.py:101-104).  The transport is modelled as the per-command exchange
outcomes. -/

/-- Outcome of one send/receive exchange for one command. -/
inductive Exchange
  | delivered (r : AnyResult)
  | connectionClosed
deriving DecidableEq

/-- The `for command in llm_commands.root:` loop of `_send_commands`
(server.py:138-147) with its local `results` accumulator: `none` models the
`ConnectionError` escaping the loop (including the exchanges the transport
never got to). -/
def sendCommandsAux : List AnyCommand → List Exchange → List AnyResult → Option (List AnyResult)
  | [], _, acc => some acc.reverse
  | _ :: _, [], _ => none
  | _ :: cs, .delivered r :: es, acc => sendCommandsAux cs es (r :: acc)
  | _ :: _, .connectionClosed :: _, _ => none

/-- `_send_commands` followed by its caller's `except ConnectionError:
break`: the history after the batch (server.py:131-151, 101-104). -/
def serverBatch (hist : List AnyResult) (cmds : List AnyCommand) (es : List Exchange) :
    List AnyResult :=
  match sendCommandsAux cmds es [] with
  | some rs => hist ++ rs
  | none => hist

/- ===================== Connection state machine (C5) =====================

The control messages `SynMessage`, `AckMessage`, `FinMessage`, `NopMessage`
and the aliases `AnyMessage` / `AnyServerRuntimeMessage` are imported by
`server/server.py` and `client/client.py` from `client.typedefs`, but the
iteration of that module in the tree does not define them. -/

/-- Modelled from the spec: the message taxonomy of §4.2/§4.5 — control
messages are empty tagged sentinels (`SynMessage`, `AckMessage`,
`FinMessage`, `NopMessage`) and everything else is a payload document;
the `FinMessage` test applied by `_expect` on both peers detects exactly
the `fin` sentinel. -/
inductive NetMsg
  | syn
  | ack
  | fin
  | nop
  | payload (json : String)
deriving DecidableEq

/-- Server-side connection-machine state: whether the listening socket is
still open (`Server._socket`, server.py:34). -/
structure ServerSt where
  listening : Bool
deriving DecidableEq

/-- `Server.cleanup` (server.py:63-72): shuts down and closes
`self._socket` — the LISTENING socket — and sets it to `None`. -/
def serverCleanup (st : ServerSt) : ServerSt :=
  { st with listening := false }

/-- `Server._expect` (server.py:121-129): a FIN makes it log, call
`self.cleanup()` and raise `ConnectionError('FIN received')`. -/
def serverExpect (st : ServerSt) (m : NetMsg) : Except PyError NetMsg × ServerSt :=
  match m with
  | .fin => (.error (.connectionError "FIN received"), serverCleanup st)
  | m => (.ok m, st)

/-- The dispatch phase of `Server._handle_connection` over the messages the
client sends on one connection (server.py:96-105): each `_expect` either
yields a message and continues or raises `ConnectionError`, which the
`except ConnectionError: break` turns into leaving the loop; an exhausted
connection (peer gone) likewise raises and breaks.  Returns the server state
after the connection is over. -/
def dispatchConn (st : ServerSt) : List NetMsg → ServerSt
  | [] => st
  | m :: rest =>
    match serverExpect st m with
    | (.error _, st2) => st2
    | (.ok _, st2) => dispatchConn st2 rest

/-- `Server.serve` (server.py:54-61): `while self._socket:` accept one
connection, handle it, catch `ConnectionError`, loop.  Takes the scripts of
the pending client connections and returns the final state together with
how many connections were accepted and handled. -/
def serve (st : ServerSt) : List (List NetMsg) → ServerSt × Nat
  | [] => (st, 0)
  | conn :: conns =>
    if st.listening then
      let st2 := dispatchConn st conn
      let res := serve st2 conns
      (res.1, res.2 + 1)
    else (st, 0)

/-- Modelled from the spec: `RECONNECT_DELAY` is imported by
`client/client.py` from `client.const`, but the iteration of that module in
the tree does not define it; the spec (§4.5.4) fixes only its role — the
client sleeps this many seconds before reconnecting. -/
def RECONNECT_DELAY : Nat := 5

/-- What the client's outer loop does after `_handle_connection` ends. -/
inductive ClientStep
  | reconnectAfter (delay : Nat)
deriving DecidableEq

/-- `Client._expect` (client.py:86-94): a FIN makes the client log, close
its connection socket (`cleanup`) and raise `ConnectionError`. -/
def clientExpect (m : NetMsg) : Except PyError NetMsg :=
  match m with
  | .fin => .error (.connectionError "FIN received")
  | m => .ok m

/-- One iteration of `Client.connect` (client.py:38-48): whatever way the
connection ended — including a `ConnectionError` raised on FIN, which is
caught — the client clears its socket, waits `RECONNECT_DELAY` seconds and
reconnects. -/
def clientLoopStep (outcome : Option PyError) : ClientStep :=
  match outcome with
  | _ => .reconnectAfter RECONNECT_DELAY

/- ===================== Helper lemmas ===================================== -/

theorem takeWhileAppendOfAll {α} (p : α → Bool) (a b : List α)
    (hall : ∀ x ∈ a, p x = true) : (a ++ b).takeWhile p = a ++ b.takeWhile p := by
  induction a with
  | nil => simp
  | cons x t ih =>
    have hx : p x = true := hall x (List.mem_cons_self x t)
    have ht : ∀ y ∈ t, p y = true := fun y hy => hall y (List.mem_cons_of_mem x hy)
    simp [List.takeWhile_cons, hx, ih ht]

theorem dropWhileAppendOfAll {α} (p : α → Bool) (a b : List α)
    (hall : ∀ x ∈ a, p x = true) : (a ++ b).dropWhile p = b.dropWhile p := by
  induction a with
  | nil => simp
  | cons x t ih =>
    have hx : p x = true := hall x (List.mem_cons_self x t)
    have ht : ∀ y ∈ t, p y = true := fun y hy => hall y (List.mem_cons_of_mem x hy)
    simp [List.dropWhile_cons, hx, ih ht]

theorem splitsOnNotMem (sep : Char) (l : List Char) (hmem : sep ∉ l) :
    splitsOn sep l = [] := by
  induction l with
  | nil => rfl
  | cons c t ih =>
    have hc : ¬(c = sep) := fun e => hmem (by simp [e])
    simp [splitsOn, hc, ih (fun m => hmem (List.mem_cons_of_mem c m))]

theorem splitsOnGetLast (sep : Char) (a b : List Char) (hb : sep ∉ b) :
    (splitsOn sep (a ++ sep :: b)).getLast? = some (a, b) := by
  induction a with
  | nil => simp [splitsOn, splitsOnNotMem sep b hb]
  | cons x a2 ih =>
    have hdef : splitsOn sep (x :: (a2 ++ sep :: b)) =
        (if x = sep then [(([] : List Char), a2 ++ sep :: b)] else []) ++
          (splitsOn sep (a2 ++ sep :: b)).map (fun p => (x :: p.1, p.2)) := rfl
    rw [List.cons_append, hdef, List.getLast?_append, List.getLast?_map, ih]
    simp

theorem getLastFilter {α} (p : α → Bool) (l : List α) (x : α)
    (hl : l.getLast? = some x) (hx : p x = true) :
    (l.filter p).getLast? = some x := by
  rw [List.getLast?_eq_head?_reverse] at hl ⊢
  rw [← List.filter_reverse]
  cases hrev : l.reverse with
  | nil => simp [hrev] at hl
  | cons y t =>
    rw [hrev] at hl
    simp only [List.head?_cons, Option.some.injEq] at hl
    subst hl
    simp [List.filter_cons, hx]

theorem digitCharValue : ∀ m : Nat, m < 10 → (Nat.digitChar m).toNat = 48 + m := by
  decide

theorem digitCharIsDigit : ∀ m : Nat, m < 10 → (Nat.digitChar m).isDigit = true := by
  decide

theorem natToDigitsRevFuelSpec : ∀ fuel n : Nat, n < fuel →
    natToDigitsRevFuel fuel n ≠ [] ∧
    (∀ c ∈ natToDigitsRevFuel fuel n, c.isDigit = true) ∧
    valRev (natToDigitsRevFuel fuel n) = n := by
  intro fuel
  induction fuel with
  | zero => intro n hn; omega
  | succ f ih =>
    intro n hn
    unfold natToDigitsRevFuel
    by_cases hlt : n < 10
    · simp only [hlt, if_true]
      refine ⟨by simp, ?_, ?_⟩
      · intro c hc
        simp only [List.mem_singleton] at hc
        subst hc
        exact digitCharIsDigit n hlt
      · simp [valRev, digitCharValue n hlt]
    · simp only [hlt, if_false]
      have hstep : n / 10 < f := by omega
      obtain ⟨hne, hdig, hval⟩ := ih (n / 10) hstep
      have hm : n % 10 < 10 := Nat.mod_lt _ (by omega)
      refine ⟨by simp, ?_, ?_⟩
      · intro c hc
        rcases List.mem_cons.mp hc with hc | hc
        · subst hc
          exact digitCharIsDigit _ hm
        · exact hdig c hc
      · simp only [valRev, hval, digitCharValue _ hm]
        omega

theorem natToDigitsRevSpec (n : Nat) : natToDigitsRev n ≠ [] ∧
    (∀ c ∈ natToDigitsRev n, c.isDigit = true) ∧ valRev (natToDigitsRev n) = n :=
  natToDigitsRevFuelSpec (n + 1) n (by omega)

theorem digitsToNatReverse (l : List Char) : digitsToNat l.reverse = valRev l := by
  induction l with
  | nil => rfl
  | cons c t ih =>
    simp only [List.reverse_cons, digitsToNat, List.foldl_append, List.foldl_cons,
      List.foldl_nil]
    simp only [digitsToNat] at ih
    rw [ih]
    simp only [valRev]
    omega

theorem stringMkData (s : String) : String.mk s.data = s := rfl

theorem exceptMapOkInv {ε α β : Type} (f : α → β) (e : Except ε α) (y : β)
    (hm : e.map f = .ok y) : ∃ x, e = .ok x ∧ y = f x := by
  cases e with
  | error err => simp [Except.map] at hm
  | ok x =>
    refine ⟨x, rfl, ?_⟩
    simpa [Except.map] using hm.symm

theorem parsePromptFormat (c : Nat) (u h w : String) (t : Char)
    (hwf : wfPrompt u h w t) :
    parsePrompt (formatPrompt c u h w t) =
      some { prompt := formatPrompt c u h w t, exit_code := (c : Int),
             user := u, host := h, cwd := w,
             usertype := if t = '$' then .user else .root } := by
  obtain ⟨hu1, hu2, hh1, hh2, hh3, hw1, hw2, hw3, hw4, ht⟩ := hwf
  obtain ⟨hdne, hddig, hdval⟩ := natToDigitsRevSpec c
  have hdata : (formatPrompt c u h w t).data =
      (natToDigitsRev c).reverse ++
        ((u.data ++ '@' :: (h.data ++ ':' :: w.data)) ++ ' ' :: t :: [' ']).cons ' ' := by
    simp only [formatPrompt, String.data_append,
      show (" " : String).data = [' '] from rfl,
      show ("@" : String).data = ['@'] from rfl,
      show (":" : String).data = [':'] from rfl,
      show (String.singleton t).data = [t] from rfl,
      show (natToString c).data = (natToDigitsRev c).reverse from rfl]
    simp [List.append_assoc]
  have hAllDig : ∀ x ∈ (natToDigitsRev c).reverse, x.isDigit = true := by
    intro x hx
    exact hddig x (List.mem_reverse.mp hx)
  have htake : ((formatPrompt c u h w t).data).takeWhile Char.isDigit =
      (natToDigitsRev c).reverse := by
    rw [hdata, takeWhileAppendOfAll _ _ _ hAllDig]
    simp [List.takeWhile_cons]
  have hdrop : ((formatPrompt c u h w t).data).dropWhile Char.isDigit =
      ' ' :: ((u.data ++ '@' :: (h.data ++ ':' :: w.data)) ++ ' ' :: t :: [' ']) := by
    rw [hdata, dropWhileAppendOfAll _ _ _ hAllDig]
    simp [List.dropWhile_cons]
  have hdsne : (natToDigitsRev c).reverse ≠ [] := by
    simp [hdne]
  have hrevTail : ((u.data ++ '@' :: (h.data ++ ':' :: w.data)) ++ ' ' :: t :: [' ']).reverse =
      ' ' :: t :: ' ' :: (u.data ++ '@' :: (h.data ++ ':' :: w.data)).reverse := by
    simp [List.reverse_append]
  have hnl : '\n' ∉ (u.data ++ '@' :: (h.data ++ ':' :: w.data)) := by
    intro hmem
    rcases List.mem_append.mp hmem with hm | hm
    · exact hu2 hm
    · rcases List.mem_cons.mp hm with hm | hm
      · exact absurd hm (by decide)
      · rcases List.mem_append.mp hm with hm | hm
        · exact hh2 hm
        · rcases List.mem_cons.mp hm with hm | hm
          · exact absurd hm (by decide)
          · exact hw2 hm
  have hColon : lastValidColon (h.data ++ ':' :: w.data) = some (h.data, w.data) := by
    unfold lastValidColon
    refine getLastFilter _ _ _ (splitsOnGetLast ':' h.data w.data hw4) ?_
    simp [List.isEmpty_eq_false.mpr hh1, List.isEmpty_eq_false.mpr hw1]
  have hAtNot : '@' ∉ (h.data ++ ':' :: w.data) := by
    intro hmem
    rcases List.mem_append.mp hmem with hm | hm
    · exact hh3 hm
    · rcases List.mem_cons.mp hm with hm | hm
      · exact absurd hm (by decide)
      · exact hw3 hm
  have hAt : ((splitsOn '@' (u.data ++ '@' :: (h.data ++ ':' :: w.data))).filter
      (fun p => !p.1.isEmpty && (lastValidColon p.2).isSome)).getLast? =
      some (u.data, h.data ++ ':' :: w.data) := by
    refine getLastFilter _ _ _ (splitsOnGetLast '@' u.data _ hAtNot) ?_
    simp [List.isEmpty_eq_false.mpr hu1, hColon]
  have hMid : matchMid (u.data ++ '@' :: (h.data ++ ':' :: w.data)) =
      some (u.data, h.data, w.data) := by
    unfold matchMid
    rw [if_neg hnl, hAt]
    simp [hColon]
  have hmatch : matchPromptChars (formatPrompt c u h w t).data =
      some (c, u.data, h.data, w.data, t) := by
    unfold matchPromptChars
    rw [htake, hdrop, if_neg (by simpa using hdne)]
    simp only [hrevTail, List.reverse_reverse, hMid, if_pos rfl, ht,
      digitsToNatReverse, hdval]
    simp [ht, hMid, digitsToNatReverse, hdval]
  unfold parsePrompt
  rw [hmatch]
  rcases ht with ht | ht
  · subst ht
    simp [USERTYPES]
  · subst ht
    simp [USERTYPES]

theorem parsePromptEProbe (env : PromptEnv) (st : BashSt)
    (hwf : wfPrompt env.user env.host st.cwd env.sigil) :
    parsePromptE (probeString env st) =
      .ok { prompt := probeString env st, exit_code := (st.lastExit : Int),
            user := env.user, host := env.host, cwd := st.cwd,
            usertype := if env.sigil = '$' then .user else .root } := by
  unfold parsePromptE probeString
  rw [parsePromptFormat _ _ _ _ _ hwf]

/- ===================== Claim theorems ==================================== -/

/-- C1: the claim says `recv(send(v)) == v` and that several NUL-terminated
frames arriving in one TCP segment are returned by successive `recv` calls
as the same sequence because the receive buffer persists across calls.  The
first part holds for a single frame, but `read_message` re-initializes its
buffer locally on every call and discards the bytes after the first NUL:
when the two frames `a\0` and `b\0` arrive in one segment, the first call
returns `a` and drops `b\0`, and the next call finds the connection empty
and fails instead of returning `b`. -/
theorem frameSecondMessageLost :
    readMessage [sendBytes [97]] = .ok ([97], []) ∧
    readMessage [[97, 0, 98, 0]] = .ok ([97], []) ∧
    readMessage [] = .error "Connection closed" := by
  refine ⟨?_, ?_, ?_⟩ <;> rfl

/-- C6 counterexample: the claim quantifies over all components drawn from
the regex character classes (`.` matches `@`), but parsing the formatted
prompt for `u = "a"`, `h = "b@c"`, `w = "/"`, `c = 0`, `t = '$'` yields
`user = "a@b"`, `host = "c"` — the greedy `(?P<user>.+)` takes up to the
LAST `@` — so `parse(format(u,h,cwd,c,t))` differs from the components. -/
theorem promptParseNotInverseOnAt :
    parsePrompt (formatPrompt 0 "a" "b@c" "/" '$') =
      some { prompt := formatPrompt 0 "a" "b@c" "/" '$', exit_code := 0,
             user := "a@b", host := "c", cwd := "/", usertype := .user } ∧
    parsePrompt (formatPrompt 0 "a" "b@c" "/" '$') ≠
      some { prompt := formatPrompt 0 "a" "b@c" "/" '$', exit_code := 0,
             user := "a", host := "b@c", cwd := "/", usertype := .user } := by
  constructor
  · decide
  · decide

/-- C6: amended claim — the round-trip `parse(format(u,h,cwd,c,t)) =
(c,u,h,cwd,usertype(t))` holds for every exit code `c ∈ 0..255` and sigil
`t ∈ {$, #}` provided additionally that the components contain no newline,
that `h` and `cwd` contain no `@`, and that `cwd` contains no `:` (greedy
backtracking otherwise reassociates the separators); `usertype` maps `$` to
user and `#` to root; and a non-matching prompt makes `_parse_prompt` raise
(`ValueError`, the executor's fatal error). -/
theorem promptParseRoundtrip (c : Nat) (u h w : String) (t : Char)
    (hc : c ≤ 255) (hwf : wfPrompt u h w t) :
    parsePrompt (formatPrompt c u h w t) =
      some { prompt := formatPrompt c u h w t, exit_code := (c : Int),
             user := u, host := h, cwd := w,
             usertype := if t = '$' then Usertype.user else Usertype.root } ∧
    USERTYPES '$' = some .user ∧ USERTYPES '#' = some .root ∧
    (∀ s : String, parsePrompt s = none →
      parsePromptE s = .error ("Prompt does not match expected format: " ++ s)) := by
  refine ⟨parsePromptFormat c u h w t hwf, rfl, rfl, ?_⟩
  intro s hs
  unfold parsePromptE
  rw [hs]

/-- C6 witness: the round-trip theorem applied at `c = 0`, `u = "user"`,
`h = "host"`, `w = "/app"`, `t = '$'`. -/
theorem promptParseRoundtripWitness :
    parsePrompt (formatPrompt 0 "user" "host" "/app" '$') =
      some { prompt := formatPrompt 0 "user" "host" "/app" '$', exit_code := (0 : Int),
             user := "user", host := "host", cwd := "/app",
             usertype := if '$' = '$' then Usertype.user else Usertype.root } :=
  (promptParseRoundtrip 0 "user" "host" "/app" '$' (by decide) (by decide)).1

/-- C2 counterexample: the claim says `ShellCommand("exit 42")` leaves the
outer shell's state (including its working directory) unchanged because of a
subshell wrapper.  But `_execute_shell` writes the user command verbatim to
the shell's stdin — only the PS1 probe runs in a subshell — so the outer
bash exits, `_ensure_shell` respawns a fresh one, and a shell sitting in
`/tmp` ends up as the fresh shell in `/app`: the state changed. -/
theorem exit42ChangesOuterShell :
    (executeShell ⟨"root", "sandbox", '#'⟩ ⟨true, "/tmp", 0⟩ ⟨true, "/app", 0⟩
        ⟨none, none, none⟩ ⟨none, "exit 42"⟩ (.ok ["exit"]) (.killsShell 42)).map
      (fun pr => pr.2) = .ok ⟨true, "/app", 0⟩ ∧
    (⟨true, "/app", 0⟩ : BashSt) ≠ ⟨true, "/tmp", 0⟩ := by
  constructor
  · rfl
  · decide

/-- C2: amended claim — user commands are written to the outer shell with no
subshell wrapper, so a command that exits the shell (such as `exit 42`)
terminates the outer bash; the executor detects the dead shell and respawns
a fresh one, so the working directory and variables are reset to the fresh
shell's, not preserved.  Had the executor wrapped user commands in a
subshell as the spec asserts (`executeShellWrapped`), the outer shell would
survive with its working directory intact and only `$?` updated. -/
theorem exitKillsOuterShellRespawn (env : PromptEnv) (st fresh : BashSt)
    (base : BaseSnap) (cmd : ShellCommand) (lexEnv : BashlexOutcome) (n : Nat)
    (hlex : lexCheck cmd.command lexEnv = none)
    (hwfF : wfPrompt env.user env.host fresh.cwd env.sigil)
    (hwfS : wfPrompt env.user env.host st.cwd env.sigil) :
    (executeShell env st fresh base cmd lexEnv (.killsShell n)).map (fun pr => pr.2) =
      .ok fresh ∧
    (executeShellWrapped env st fresh base cmd lexEnv (.killsShell n)).map (fun pr => pr.2) =
      .ok ⟨true, st.cwd, n⟩ := by
  constructor
  · simp only [executeShell, hlex]
    rw [parsePromptEProbe env fresh hwfF]
    rfl
  · simp only [executeShellWrapped, executeShell, hlex]
    rw [parsePromptEProbe env ⟨true, st.cwd, n⟩ hwfS]
    rfl

/-- C2 witness: the amended theorem applied to `exit 7` on a shell in
`/tmp` with the fresh shell in `/app`. -/
theorem exitKillsOuterShellRespawnWitness :
    (executeShell ⟨"root", "sb", '#'⟩ ⟨true, "/tmp", 0⟩ ⟨true, "/app", 0⟩
        ⟨none, none, none⟩ ⟨none, "exit 7"⟩ (.ok ["exit"]) (.killsShell 7)).map
      (fun pr => pr.2) = .ok ⟨true, "/app", 0⟩ :=
  (exitKillsOuterShellRespawn ⟨"root", "sb", '#'⟩ ⟨true, "/tmp", 0⟩ ⟨true, "/app", 0⟩
    ⟨none, none, none⟩ ⟨none, "exit 7"⟩ (.ok ["exit"]) 7 (by rfl) (by decide) (by decide)).1

/-- C3: for every history `H` and token budget, a prompt returned by the
compactor is `[system]` followed by the flattening of a suffix of `H`
obtained by dropping only the oldest entries one at a time (the remaining
history is exactly that suffix, never reordered), and if `[system]` plus
the flattening of all of `H` already fits within `n_ctx - 512` tokens no
entry is dropped: the full prompt is returned with the history intact. -/
theorem compactorSuffixDrop (tc : List ChatMsg → Nat) (nctx : Int) (system : ChatMsg)
    (H : List AnyResult) :
    (∀ p H2, getPromptAux tc nctx system H = .ok (p, H2) →
      ∃ k, k ≤ H.length ∧ H2 = H.drop k ∧ p = system :: fromCommands (H.drop k)) ∧
    (H ≠ [] → (tc (system :: fromCommands H) : Int) ≤ nctx - (LLAMA_TOKEN_BUFFER : Int) →
      getPromptAux tc nctx system H = .ok (system :: fromCommands H, H)) := by
  constructor
  · induction H with
    | nil =>
      intro p H2 hok
      simp [getPromptAux] at hok
    | cons hd tl ih =>
      intro p H2 hok
      rw [getPromptAux] at hok
      by_cases hfit :
          (tc (system :: fromCommands (hd :: tl)) : Int) ≤ nctx - (LLAMA_TOKEN_BUFFER : Int)
      · rw [if_pos hfit] at hok
        obtain ⟨hp, hH⟩ := Prod.mk.injEq .. ▸ Except.ok.inj hok
        exact ⟨0, by omega, by simp [← hH], by simp [← hp]⟩
      · rw [if_neg hfit] at hok
        obtain ⟨k, hk1, hk2, hk3⟩ := ih p H2 hok
        refine ⟨k + 1, by simp; omega, by simpa using hk2, by simpa using hk3⟩
  · intro hne hfit
    cases H with
    | nil => exact absurd rfl hne
    | cons hd tl =>
      rw [getPromptAux, if_pos hfit]

/-- C3 witness: with the tokenizer counting one token per message, a budget
of 1000 and a one-entry history, the prompt fits and is returned whole. -/
theorem compactorSuffixDropWitness :
    getPromptAux (fun l => l.length) 1000 ⟨"system", "sys"⟩
        [.fileRead { config := none, system := none, goal := none,
                     command := { comment := none, file := "f" }, file := "f",
                     content := some "x", error := none }] =
      .ok (⟨"system", "sys"⟩ :: fromCommands
        [.fileRead { config := none, system := none, goal := none,
                     command := { comment := none, file := "f" }, file := "f",
                     content := some "x", error := none }],
        [.fileRead { config := none, system := none, goal := none,
                     command := { comment := none, file := "f" }, file := "f",
                     content := some "x", error := none }]) :=
  (compactorSuffixDrop (fun l => l.length) 1000 ⟨"system", "sys"⟩ _).2
    (List.cons_ne_nil _ _) (by decide)

/-- `sendCommandsAux` returns one result per command when it succeeds. -/
theorem sendCommandsAuxLength : ∀ (cs : List AnyCommand) (es : List Exchange)
    (acc rs : List AnyResult), sendCommandsAux cs es acc = some rs →
    rs.length = cs.length + acc.length := by
  intro cs
  induction cs with
  | nil =>
    intro es acc rs hok
    obtain h := Option.some.inj hok
    simp [← h]
  | cons c cs2 ih =>
    intro es acc rs hok
    cases es with
    | nil => exact absurd hok (by simp [sendCommandsAux])
    | cons e es2 =>
      cases e with
      | delivered r =>
        have := ih es2 (r :: acc) rs hok
        simp only [List.length_cons] at this ⊢
        omega
      | connectionClosed => exact absurd hok (by simp [sendCommandsAux])

/-- The loop aborts with `none` when the connection closes before the batch
is complete. -/
theorem sendCommandsAuxAborts : ∀ (pre : List Exchange) (cs : List AnyCommand)
    (acc : List AnyResult) (rest : List Exchange),
    (∀ e ∈ pre, ∃ r, e = .delivered r) → pre.length < cs.length →
    sendCommandsAux cs (pre ++ .connectionClosed :: rest) acc = none := by
  intro pre
  induction pre with
  | nil =>
    intro cs acc rest _ hlen
    cases cs with
    | nil => simp at hlen
    | cons c cs2 => rfl
  | cons e pre2 ih =>
    intro cs acc rest hall hlen
    obtain ⟨r, hr⟩ := hall e (List.mem_cons_self e pre2)
    subst hr
    cases cs with
    | nil => simp at hlen
    | cons c cs2 =>
      show sendCommandsAux cs2 (pre2 ++ .connectionClosed :: rest) (r :: acc) = none
      refine ih cs2 (r :: acc) rest (fun x hx => hall x (List.mem_cons_of_mem _ hx)) ?_
      simp only [List.length_cons] at hlen ⊢
      omega

/-- C4: batch atomicity — the history after a batch either is unchanged or
has grown by exactly one result per command of the batch (the append happens
only after every command round-tripped); and if the connection fails after
`k < N` results have been received, the history grows by zero entries. -/
theorem batchAtomicity :
    (∀ (hist : List AnyResult) (cmds : List AnyCommand) (es : List Exchange),
      serverBatch hist cmds es = hist ∨
      ∃ rs, rs.length = cmds.length ∧ serverBatch hist cmds es = hist ++ rs) ∧
    (∀ (hist : List AnyResult) (cmds : List AnyCommand) (pre rest : List Exchange),
      (∀ e ∈ pre, ∃ r, e = .delivered r) → pre.length < cmds.length →
      serverBatch hist cmds (pre ++ .connectionClosed :: rest) = hist) := by
  constructor
  · intro hist cmds es
    unfold serverBatch
    cases hsend : sendCommandsAux cmds es [] with
    | none => exact Or.inl rfl
    | some rs =>
      refine Or.inr ⟨rs, ?_, rfl⟩
      have := sendCommandsAuxLength cmds es [] rs hsend
      simpa using this
  · intro hist cmds pre rest hall hlen
    unfold serverBatch
    rw [sendCommandsAuxAborts pre cmds [] rest hall hlen]

/-- C4 witness: a batch of two shell commands whose connection drops after
the first result leaves the history unchanged. -/
theorem batchAtomicityWitness :
    serverBatch [] [.shell { comment := none, command := "echo a" },
                    .shell { comment := none, command := "echo b" }]
      ([.delivered (.fileRead { config := none, system := none, goal := none,
                                command := { comment := none, file := "f" }, file := "f",
                                content := some "x", error := none })] ++
        .connectionClosed :: []) = [] :=
  batchAtomicity.2 [] _ _ []
    (fun e he => by
      refine ⟨(.fileRead { config := none, system := none, goal := none,
                           command := { comment := none, file := "f" }, file := "f",
                           content := some "x", error := none }), ?_⟩
      simpa using he)
    (by decide)

/-- C5 counterexample: the claim says that after a FIN the server's outer
loop returns to accepting new connections.  With the listening server given
two pending connections, the first of which sends a result and then FIN,
`serve` handles only one connection and ends with the listening socket
closed: `Server._expect` reacted to the FIN by calling `self.cleanup()`,
which shuts down the LISTENING socket and sets it to `None`, so
`while self._socket:` terminates and the second connection is never
accepted. -/
theorem finStopsServerAccepting :
    serve ⟨true⟩ [[.payload "result1", .fin], [.payload "result2"]] = (⟨false⟩, 1) := rfl

/-- C5: amended claim — a received FinMessage is treated as an in-band
close: the receiving peer logs it and fails with `ConnectionClosed`
(`ConnectionError`), the dispatch loop exits, and the client's outer loop
sleeps `RECONNECT_DELAY` seconds and reconnects; but on the server the FIN
branch of `_expect` calls `cleanup()`, which closes the LISTENING socket, so
the serve loop terminates and the server stops accepting new connections
instead of returning to accept. -/
theorem finInBandClose (st : ServerSt) (rest : List NetMsg) (conns : List (List NetMsg)) :
    serverExpect st .fin = (.error (.connectionError "FIN received"), serverCleanup st) ∧
    dispatchConn st (.fin :: rest) = serverCleanup st ∧
    (serverCleanup st).listening = false ∧
    serve (serverCleanup st) conns = (serverCleanup st, 0) ∧
    clientExpect .fin = .error (.connectionError "FIN received") ∧
    clientLoopStep (some (.connectionError "FIN received")) =
      .reconnectAfter RECONNECT_DELAY := by
  refine ⟨rfl, rfl, rfl, ?_, rfl, rfl⟩
  cases conns with
  | nil => rfl
  | cons c cs =>
    show (if (serverCleanup st).listening then _ else _) = _
    rw [if_neg (by simp [serverCleanup])]

/-- C7 counterexample: the claim says context exhaustion is fatal and
terminates the process.  But `_get_prompt` raises a plain `ValueError`
(`'No commands fit ...'`), and the dispatch loop's `except ValueError:
continue` — meant for model-output validation failures — catches it too:
on an empty history the loop's next action is `continueLoop`, which is not
a crash. -/
theorem contextExhaustedNotFatal :
    dispatchStep (getCommandsE (fun l => l.length) 8192 ⟨"system", "sys"⟩ [] (.ok [])) none =
      .continueLoop ∧
    ∀ e : PyError, LoopAction.continueLoop ≠ .crash e :=
  ⟨rfl, fun _ h => LoopAction.noConfusion h⟩

/-- C7: amended claim — the generation loop treats schema-validation
failures and context exhaustion identically: both raise errors that
`except ValueError:` catches (`pydantic.ValidationError` subclasses
`ValueError`, and the compactor's exhaustion error is a `ValueError`), so
the loop skips the generation and continues in both cases; context
exhaustion does not terminate the process. -/
theorem valueErrorCaughtContinues (tc : List ChatMsg → Nat) (nctx : Int)
    (system : ChatMsg) (gp : Except PyError (List AnyCommand)) (e : PyError)
    (he : isValueError e = true) :
    getCommandsE tc nctx system [] gp = .error (.valueError "No commands fit") ∧
    (∀ so, dispatchStep (.error e) so = .continueLoop) ∧
    isValueError (.validationError "invalid model output") = true ∧
    isValueError (.valueError "No commands fit") = true := by
  refine ⟨rfl, ?_, rfl, rfl⟩
  intro so
  simp [dispatchStep, he]

/-- C7 witness: the amended theorem applied to the exhaustion `ValueError`
itself. -/
theorem valueErrorCaughtContinuesWitness :
    getCommandsE (fun l => l.length) 100 ⟨"system", "sys"⟩ [] (.ok []) =
      .error (.valueError "No commands fit") :=
  (valueErrorCaughtContinues (fun l => l.length) 100 ⟨"system", "sys"⟩ (.ok [])
    (.valueError "No commands fit") (by rfl)).1

/-- C8 counterexample: the claim says every `Result` carries an exact copy
of the `Command` that produced it, with all fields including the optional
comment.  But `_dummy_result` rebuilds the command as
`ShellCommand(command=command)` from the bare string: the synthetic result
for the unparseable command `(` with comment `"list files"` carries a
command whose comment is `None`, not `"list files"`. -/
theorem syntheticResultDropsComment :
    (executeShell ⟨"root", "sb", '#'⟩ ⟨true, "/app", 0⟩ ⟨true, "/app", 0⟩
        ⟨none, none, none⟩ ⟨some "list files", "("⟩ (.parsingError "unexpected EOF")
        (.runs [] [] "/app" 0)).map (fun pr => pr.1.command) =
      .ok ⟨none, "("⟩ ∧
    (⟨none, "("⟩ : ShellCommand) ≠ ⟨some "list files", "("⟩ := by
  constructor
  · rfl
  · decide

/-- C8: amended claim — every `ShellResult` carries a command whose command
string equals the one that produced it, and on the normal execution path
(the pre-lex accepts the command) the carried command is the exact object,
comment included; file results always carry the exact command object; but
synthetic results built by `_dummy_result` (whitespace-only input, parse
errors, refused interactive TUIs) reconstruct the command from its string
and drop the comment. -/
theorem resultCarriesCommand (env : PromptEnv) (st fresh : BashSt) (base : BaseSnap)
    (cmd : ShellCommand) (lexEnv : BashlexOutcome) (beh : CmdBehavior)
    (r : ShellResult) (st2 : BashSt)
    (hok : executeShell env st fresh base cmd lexEnv beh = .ok (r, st2)) :
    r.command.command = cmd.command ∧
    (lexCheck cmd.command lexEnv = none → r.command = cmd) ∧
    (∀ (fcmd : FileReadCommand) (fs : FileOutcome),
      (executeFileRead base fcmd fs).command = fcmd) ∧
    (∀ (fcmd : FileWriteCommand) (fs : FileOutcome),
      (executeFileWrite base fcmd fs).command = fcmd) := by
  refine ⟨?_, ?_, fun fcmd fs => by cases fs <;> rfl, fun fcmd fs => by cases fs <;> rfl⟩
  · cases hlex : lexCheck cmd.command lexEnv with
    | some v =>
      obtain ⟨code, msg⟩ := v
      simp only [executeShell, hlex] at hok
      unfold dummyResult at hok
      obtain ⟨p, hp, heq⟩ := exceptMapOkInv _ _ _ hok
      have hcmd := congrArg (fun pr => pr.1.command) heq
      simp only at hcmd
      rw [hcmd]
    | none =>
      simp only [executeShell, hlex] at hok
      cases beh with
      | runs out err newCwd ec =>
        obtain ⟨p, hp, heq⟩ := exceptMapOkInv _ _ _ hok
        have hcmd := congrArg (fun pr => pr.1.command) heq
        simp only at hcmd
        rw [hcmd]
      | killsShell code =>
        obtain ⟨p, hp, heq⟩ := exceptMapOkInv _ _ _ hok
        have hcmd := congrArg (fun pr => pr.1.command) heq
        simp only at hcmd
        rw [hcmd]
      | hangs killedStatus =>
        obtain ⟨p, hp, heq⟩ := exceptMapOkInv _ _ _ hok
        have hcmd := congrArg (fun pr => pr.1.command) heq
        simp only at hcmd
        rw [hcmd]
  · intro hlex
    simp only [executeShell, hlex] at hok
    cases beh with
    | runs out err newCwd ec =>
      obtain ⟨p, hp, heq⟩ := exceptMapOkInv _ _ _ hok
      have hcmd := congrArg (fun pr => pr.1.command) heq
      simpa using hcmd
    | killsShell code =>
      obtain ⟨p, hp, heq⟩ := exceptMapOkInv _ _ _ hok
      have hcmd := congrArg (fun pr => pr.1.command) heq
      simpa using hcmd
    | hangs killedStatus =>
      obtain ⟨p, hp, heq⟩ := exceptMapOkInv _ _ _ hok
      have hcmd := congrArg (fun pr => pr.1.command) heq
      simpa using hcmd

/-- C8 witness: the amended theorem applied to a normal `echo hi` run whose
result carries the exact command, comment included. -/
theorem resultCarriesCommandWitness :
    ({ config := none, system := none, goal := none,
       command := ⟨some "greeting", "echo hi"⟩,
       prompt := { prompt := formatPrompt 0 "root" "sb" "/app" '#', exit_code := 0,
                   user := "root", host := "sb", cwd := "/app", usertype := .root },
       stdout := [(0, "hi\n")], stderr := [],
       exit_code := 0 } : ShellResult).command.command =
      (⟨some "greeting", "echo hi"⟩ : ShellCommand).command :=
  (resultCarriesCommand ⟨"root", "sb", '#'⟩ ⟨true, "/tmp", 0⟩ ⟨true, "/app", 0⟩
    ⟨none, none, none⟩ ⟨some "greeting", "echo hi"⟩ (.ok ["echo"])
    (.runs [(0, "hi\n")] [] "/app" 0) _ ⟨true, "/app", 0⟩ (by rfl)).1

/-- C9: on the normal execution path the `ShellResult`'s top-level
`exit_code` equals `result.prompt.exit_code` (the source literally sets
`exit_code=prompt.exit_code`); synthetic results built by `_dummy_result`
set `exit_code` to the given synthetic code independently of the freshly
probed prompt, whose `exit_code` is the shell's pre-existing `$?` — the
previous command's status. -/
theorem exitCodeMatchesPrompt (env : PromptEnv) (st fresh : BashSt) (base : BaseSnap)
    (cmd : ShellCommand) (lexEnv : BashlexOutcome)
    (out err : List OutputLine) (newCwd : String) (ec : Nat)
    (r rd : ShellResult) (st2 std : BashSt)
    (cs : String) (code : Int) (so se : Option String)
    (hok : executeShell env st fresh base cmd lexEnv (.runs out err newCwd ec) = .ok (r, st2))
    (hlex : lexCheck cmd.command lexEnv = none)
    (hdum : dummyResult env st fresh base cs code so se = .ok (rd, std))
    (halive : st.alive = true)
    (hwf : wfPrompt env.user env.host st.cwd env.sigil) :
    r.exit_code = r.prompt.exit_code ∧
    rd.exit_code = code ∧
    rd.prompt.exit_code = (st.lastExit : Int) := by
  refine ⟨?_, ?_, ?_⟩
  · simp only [executeShell, hlex] at hok
    obtain ⟨p, hp, heq⟩ := exceptMapOkInv _ _ _ hok
    have h1 := congrArg (fun pr => pr.1.exit_code) heq
    have h2 := congrArg (fun pr => pr.1.prompt) heq
    simp only at h1 h2
    rw [h1, h2]
  · unfold dummyResult at hdum
    obtain ⟨p, hp, heq⟩ := exceptMapOkInv _ _ _ hdum
    have h1 := congrArg (fun pr => pr.1.exit_code) heq
    simpa using h1
  · simp only [dummyResult, halive, if_true] at hdum
    rw [parsePromptEProbe env st hwf] at hdum
    simp only [Except.map] at hdum
    have h2 := congrArg (fun pr => pr.1.prompt.exit_code) (Except.ok.inj hdum)
    simpa using h2.symm

/-- C9 witness: the theorem applied to `false` (a normal run exiting 1) on a
shell whose previous command exited 3, together with the synthetic parse
error result `_dummy_result("(", 2, ...)` probed on that same shell. -/
theorem exitCodeMatchesPromptWitness :
    ({ config := none, system := none, goal := none,
       command := ⟨none, "false"⟩,
       prompt := { prompt := formatPrompt 1 "root" "sb" "/tmp" '#', exit_code := 1,
                   user := "root", host := "sb", cwd := "/tmp", usertype := .root },
       stdout := [], stderr := [],
       exit_code := 1 } : ShellResult).exit_code =
      ({ config := none, system := none, goal := none,
         command := ⟨none, "false"⟩,
         prompt := { prompt := formatPrompt 1 "root" "sb" "/tmp" '#', exit_code := 1,
                     user := "root", host := "sb", cwd := "/tmp", usertype := .root },
         stdout := [], stderr := [],
         exit_code := 1 } : ShellResult).prompt.exit_code ∧
    ({ config := none, system := none, goal := none,
       command := ⟨none, "("⟩,
       prompt := { prompt := formatPrompt 3 "root" "sb" "/tmp" '#', exit_code := 3,
                   user := "root", host := "sb", cwd := "/tmp", usertype := .root },
       stdout := [], stderr := [(0, "/bin/bash: unexpected EOF")],
       exit_code := 2 } : ShellResult).exit_code = (2 : Int) ∧
    ({ config := none, system := none, goal := none,
       command := ⟨none, "("⟩,
       prompt := { prompt := formatPrompt 3 "root" "sb" "/tmp" '#', exit_code := 3,
                   user := "root", host := "sb", cwd := "/tmp", usertype := .root },
       stdout := [], stderr := [(0, "/bin/bash: unexpected EOF")],
       exit_code := 2 } : ShellResult).prompt.exit_code =
      ((⟨true, "/tmp", 3⟩ : BashSt).lastExit : Int) :=
  exitCodeMatchesPrompt ⟨"root", "sb", '#'⟩ ⟨true, "/tmp", 3⟩ ⟨true, "/app", 0⟩
    ⟨none, none, none⟩ ⟨none, "false"⟩ (.ok ["false"]) [] [] "/tmp" 1
    _ _ ⟨true, "/tmp", 1⟩ ⟨true, "/tmp", 3⟩ "(" 2 none (some "unexpected EOF")
    (by rfl) (by rfl) (by rfl) (by rfl) (by decide)

/-- C10: in the model-facing flattening of a result into the `user` chat
message, every falsy-valued field is omitted: only truthy fields survive the
filter, a `ShellResult` with `exit_code = 0` is shown without an `exit_code`
field, a `FileWriteResult` with `written = 0` is shown without a `written`
field, and empty stdout/stderr concatenations are dropped entirely. -/
theorem falsyFieldsOmitted :
    (∀ r : AnyResult, ∀ kv ∈ userFields r, truthy kv.2 = true) ∧
    (∀ r : ShellResult, r.exit_code = 0 →
      "exit_code" ∉ (userFields (.shell r)).map Prod.fst) ∧
    (∀ r : FileWriteResult, r.written = some 0 →
      "written" ∉ (userFields (.fileWrite r)).map Prod.fst) ∧
    (∀ r : ShellResult, r.stdout = [] →
      "stdout" ∉ (userFields (.shell r)).map Prod.fst) ∧
    (∀ r : ShellResult, r.stderr = [] →
      "stderr" ∉ (userFields (.shell r)).map Prod.fst) := by
  refine ⟨?_, ?_, ?_, ?_, ?_⟩
  · intro r kv hkv
    cases r with
    | shell r => exact (List.mem_filter.mp hkv).2
    | fileRead r => exact (List.mem_filter.mp hkv).2
    | fileWrite r => exact (List.mem_filter.mp hkv).2
  · intro r h0 hmem
    obtain ⟨kv, hkv, hfst⟩ := List.mem_map.mp hmem
    simp only [userFields] at hkv
    obtain ⟨hin, htr⟩ := List.mem_filter.mp hkv
    simp only [simpleShellFields, simplifyShell, List.mem_cons, List.not_mem_nil,
      or_false] at hin
    rcases hin with rfl | rfl | rfl | rfl | rfl
    · simp at hfst
    · simp at hfst
    · simp at hfst
    · simp at hfst
    · simp [jOptI, truthy, h0] at htr
  · intro r hw hmem
    obtain ⟨kv, hkv, hfst⟩ := List.mem_map.mp hmem
    simp only [userFields] at hkv
    obtain ⟨hin, htr⟩ := List.mem_filter.mp hkv
    simp only [simpleFileWriteFields, simplifyFileWrite, List.mem_cons, List.not_mem_nil,
      or_false] at hin
    rcases hin with rfl | rfl | rfl | rfl
    · simp at hfst
    · simp at hfst
    · simp [jOptI, truthy, hw] at htr
    · simp at hfst
  · intro r hs hmem
    obtain ⟨kv, hkv, hfst⟩ := List.mem_map.mp hmem
    simp only [userFields] at hkv
    obtain ⟨hin, htr⟩ := List.mem_filter.mp hkv
    simp only [simpleShellFields, simplifyShell, List.mem_cons, List.not_mem_nil,
      or_false] at hin
    rcases hin with rfl | rfl | rfl | rfl | rfl
    · simp at hfst
    · simp at hfst
    · simp [jOptS, truthy, hs, String.join] at htr
      exact absurd htr (by decide)
    · simp at hfst
    · simp at hfst
  · intro r hs hmem
    obtain ⟨kv, hkv, hfst⟩ := List.mem_map.mp hmem
    simp only [userFields] at hkv
    obtain ⟨hin, htr⟩ := List.mem_filter.mp hkv
    simp only [simpleShellFields, simplifyShell, List.mem_cons, List.not_mem_nil,
      or_false] at hin
    rcases hin with rfl | rfl | rfl | rfl | rfl
    · simp at hfst
    · simp at hfst
    · simp at hfst
    · simp [jOptS, truthy, hs, String.join] at htr
      exact absurd htr (by decide)
    · simp at hfst

/-- C10 witness: a successful `true` run (exit 0, no output) shows no
`exit_code` field to the model. -/
theorem falsyFieldsOmittedWitness :
    "exit_code" ∉ (userFields (.shell
      { config := none, system := none, goal := none,
        command := ⟨none, "true"⟩,
        prompt := { prompt := formatPrompt 0 "root" "sb" "/app" '#', exit_code := 0,
                    user := "root", host := "sb", cwd := "/app", usertype := .root },
        stdout := [], stderr := [], exit_code := 0 })).map Prod.fst :=
  falsyFieldsOmitted.2.1
    { config := none, system := none, goal := none,
      command := ⟨none, "true"⟩,
      prompt := { prompt := formatPrompt 0 "root" "sb" "/app" '#', exit_code := 0,
                  user := "root", host := "sb", cwd := "/app", usertype := .root },
      stdout := [], stderr := [], exit_code := 0 } rfl
